import Mathlib

/-!
Verification of the news-screening pipeline in `src/news_screener/main.py`.

The Python source is shallowly embedded below. External collaborators (the
scoring service, the analysis service, the compression service) are modelled
as oracles passed in as function arguments: the Python code only observes
their responses, so a response-valued parameter captures exactly the
information flow of the source. File I/O is modelled at the level of the
structured values read and written (a JSON syntax tree for the persisted
history file). Machine arithmetic is modelled with `Nat`/`Int`.
-/

/-! ## Data model: items and scored items (dicts built in `fetch_news` / `tier1_filter`) -/

/-- A news item as built by `fetch_news` (main.py lines 128-134): the five
text fields of the dict. -/
structure Item where
  source : String
  title : String
  content : String
  date : String
  link : String
deriving DecidableEq, Repr

/-- Placeholder item used as the (provably irrelevant) default of bounded
list indexing in the embedding. -/
def dummyItem : Item :=
  { source := "", title := "", content := "", date := "", link := "" }

/-- An item after Tier-1 scoring: the dict with the keys `score` and
`filter_reason` added (main.py lines 196-197).  The fallback path (lines
201-203, 206-209) sets `score` only; `filter_reason` is never read anywhere
in the program, so the empty string stands for the absent key. -/
structure ScoredItem where
  item : Item
  score : Int
  filter_reason : String
deriving DecidableEq, Repr

/-- One `{id, score, reason}` record of the scoring response
(main.py line 193-197).  `score` and `reason` carry the values produced by
`item.get("score", 0)` and `item.get("reason", "")`. -/
structure ScoreEntry where
  id : Int
  score : Int
  reason : String
deriving DecidableEq, Repr

/-- Observable outcome of one batch-scoring call (main.py lines 181-209):
`callFailure` is any exception in the try block (network error, invalid JSON
inside the brace span, a record without an `id` before any valid record),
`noJson` is a response with no brace-delimited span (regex mismatch, line
190-199), and `success` is a parsed `{"scores": [...]}` object. -/
inductive BatchResponse where
  | callFailure : BatchResponse
  | noJson : BatchResponse
  | success (entries : List ScoreEntry) : BatchResponse
deriving DecidableEq, Repr

/-! ## Tier-1 batch scorer (`tier1_filter`, main.py lines 146-220) -/

/-- `news_list[batch_start : batch_start + n]` for `batch_start` in
`range(0, len(news_list), n)` (main.py lines 161-162). -/
def chunks (n : Nat) (l : List α) : List (List α) :=
  if h : l.isEmpty ∨ n = 0 then []
  else l.take n :: chunks n (l.drop n)
termination_by l.length
decreasing_by
  simp only [List.length_drop]
  push_neg at h
  have h1 : 0 < l.length := by
    cases l with
    | nil => simp [List.isEmpty] at h
    | cons a t => simp
  omega

/-- The in-range test `0 <= idx < len(batch)` of main.py line 195. -/
def validId (b : List Item) (e : ScoreEntry) : Bool :=
  decide (0 ≤ e.id) && decide (e.id < (b.length : Int))

/-- Full-batch fallback (main.py lines 201-203 and 206-209): every item of
the batch is emitted with score 50. -/
def fallbackScore (b : List Item) : List ScoredItem :=
  b.map (fun it => { item := it, score := 50, filter_reason := "" })

/-- The record whose values index `e.id` finally holds after the whole
response loop ran: the last in-range record with the same id.  The Python
loop appends `batch[idx]` by reference and keeps mutating it, so every
appended copy for a given index shows the values of the LAST record with
that id (main.py lines 193-198). -/
def lastWrite (ves : List ScoreEntry) (e : ScoreEntry) : ScoreEntry :=
  (ves.filter (fun e2 => e2.id == e.id)).getLastD e

/-- Scoring one batch against one response (main.py lines 181-209). -/
def scoreBatch (b : List Item) : BatchResponse → List ScoredItem
  | .callFailure => fallbackScore b
  | .noJson => fallbackScore b
  | .success es =>
      let ves := es.filter (validId b)
      ves.map (fun e =>
        { item := b.getD e.id.toNat dummyItem
          score := (lastWrite ves e).score
          filter_reason := (lastWrite ves e).reason })

/-- The per-batch output segments, in batch order.  The oracle gives the
scoring response for each batch index. -/
def batchResults (news : List Item) (oracle : Nat → BatchResponse) :
    List (List ScoredItem) :=
  (chunks 20 news).enum.map (fun p => scoreBatch p.2 (oracle p.1))

/-- `scored_news` after the batch loop of main.py lines 161-209. -/
def tier1_scored (news : List Item) (oracle : Nat → BatchResponse) :
    List ScoredItem :=
  (batchResults news oracle).flatten

/-- `scored_news.sort(key=..., reverse=True)` (main.py line 212): a stable
sort moving larger scores first.  `List.mergeSort` keeps an earlier element
before a later one whenever the relation holds between them, which for ties
keeps the original relative order, exactly as the stable Python sort with
`reverse=True` does. -/
def sortByScoreDesc (l : List ScoredItem) : List ScoredItem :=
  l.mergeSort (fun a b => decide (b.score ≤ a.score))

/-- `max(3, int(len(scored_news) * 0.05))` (main.py line 213).
`int(n * 0.05)` equals `n / 20` in exact arithmetic for every feasible
length (the float error is below 1e-2 for any list that fits in memory, and
the fractional parts of `n / 20` are multiples of 1 / 20). -/
def topCount (n : Nat) : Nat :=
  max 3 (n / 20)

/-- Sorting and top-fraction selection (main.py lines 211-214). -/
def tier1_select (scored : List ScoredItem) : List ScoredItem :=
  (sortByScoreDesc scored).take (topCount scored.length)

/-- The whole of `tier1_filter` (main.py lines 146-220), with the scoring
collaborator as an oracle. -/
def tier1_filter (news : List Item) (oracle : Nat → BatchResponse) :
    List ScoredItem :=
  if news = [] then [] else tier1_select (tier1_scored news oracle)

/-- A batch response that accounts for every item of the batch: any failed
call or JSON-less response (full fallback), or a success whose returned ids
are exactly the batch indices, each exactly once. -/
def respOk (b : List Item) : BatchResponse → Prop
  | .callFailure => True
  | .noJson => True
  | .success es =>
      List.Perm (es.map (fun e => e.id))
        ((List.range b.length).map (fun n : Nat => (n : Int)))

instance (b : List Item) (r : BatchResponse) : Decidable (respOk b r) := by
  cases r with
  | callFailure => exact isTrue trivial
  | noJson => exact isTrue trivial
  | success es => exact List.decidablePerm _ _

/-! ## Schedule engine (`determine_report_types`, main.py lines 656-695) -/

/-- A civil (proleptic Gregorian) date as carried by `datetime`. -/
structure Date where
  year : Nat
  month : Nat
  day : Nat
deriving DecidableEq, Repr

/-- Day count of a civil date from the era origin 0000-03-01, the standard
civil-calendar algorithm.  This embeds the calendar arithmetic that
`datetime.weekday` performs; it is valid for every year of the `datetime`
range (1 to 9999). -/
def civilDays (dt : Date) : Nat :=
  let y := if dt.month ≤ 2 then dt.year - 1 else dt.year
  let era := y / 400
  let yoe := y - era * 400
  let mp := if 2 < dt.month then dt.month - 3 else dt.month + 9
  let doy := (153 * mp + 2) / 5 + dt.day - 1
  let doe := yoe * 365 + yoe / 4 - yoe / 100 + doy
  era * 146097 + doe

/-- `datetime.weekday()`: Monday = 0 .. Sunday = 6 (main.py line 676 tests
for Saturday = 5).  1970-01-01 has `civilDays = 719468` and was a Thursday
(weekday 3), which fixes the offset 2. -/
def pyWeekday (dt : Date) : Nat :=
  (civilDays dt + 2) % 7

/-- `determine_report_types` (main.py lines 656-695), with the current
instant passed explicitly. -/
def determine_report_types (now : Date) : List String :=
  let reports := ["daily"]
  let reports := if pyWeekday now = 5 then reports ++ ["weekly"] else reports
  let reports := if now.day = 1 then reports ++ ["monthly"] else reports
  let reports :=
    if (now.month = 1 ∨ now.month = 4 ∨ now.month = 7 ∨ now.month = 10) ∧ now.day = 1
    then reports ++ ["quarterly"] else reports
  let reports :=
    if (now.month = 1 ∨ now.month = 7) ∧ now.day = 1
    then reports ++ ["semi_annual"] else reports
  let reports :=
    if now.month = 1 ∧ now.day = 1
    then reports ++ ["annual"] else reports
  reports

/-- The six cadences in the fixed output order of the schedule engine. -/
def allCadences : List String :=
  ["daily", "weekly", "monthly", "quarterly", "semi_annual", "annual"]

/-- The date predicate of each cadence (the spec table of section 4.3),
stated per cadence name. -/
def cadenceDue (now : Date) : String → Bool
  | "daily" => true
  | "weekly" => decide (pyWeekday now = 5)
  | "monthly" => decide (now.day = 1)
  | "quarterly" =>
      decide ((now.month = 1 ∨ now.month = 4 ∨ now.month = 7 ∨ now.month = 10)
        ∧ now.day = 1)
  | "semi_annual" => decide ((now.month = 1 ∨ now.month = 7) ∧ now.day = 1)
  | "annual" => decide (now.month = 1 ∧ now.day = 1)
  | _ => false

/-! ## History store (`load_history` / `save_history` / the history dict) -/

/-- One history record `{date, summary}` (main.py lines 743-746). -/
structure HistoryEntry where
  date : String
  summary : String
deriving DecidableEq, Repr

/-- The in-memory history dict: cadence name to its entry list.  A Python
dict preserves insertion order, which an association list models: updating
an existing key keeps its position, a new key goes to the end. -/
def HStore : Type := List (String × List HistoryEntry)

instance : DecidableEq HStore := by
  unfold HStore
  infer_instance

/-- Dict lookup `history.get(k)`. -/
def hLookup (k : String) : HStore → Option (List HistoryEntry)
  | [] => none
  | (k2, v) :: rest => if k2 = k then some v else hLookup k rest

/-- Dict assignment `history[k] = v`: in-place for an existing key, appended
for a new key. -/
def hSet (k : String) (v : List HistoryEntry) : HStore → HStore
  | [] => [(k, v)]
  | (k2, v2) :: rest => if k2 = k then (k2, v) :: rest else (k2, v2) :: hSet k v rest

/-- The retention table of main.py line 753, with the `.get(..., 10)`
default of line 754. -/
def limitOf (rt : String) : Nat :=
  if rt = "daily" then 30
  else if rt = "weekly" then 12
  else if rt = "monthly" then 12
  else if rt = "quarterly" then 8
  else if rt = "semi_annual" then 4
  else if rt = "annual" then 3
  else 10

/-- The Python slice `l[-n:]`: the last `n` elements (the whole list when
`n = 0`, since `l[-0:]` is `l[0:]`). -/
def pySliceLast (n : Nat) (l : List α) : List α :=
  if n = 0 then l else l.drop (l.length - n)

/-- The history mutation of `save_report_summary` (main.py lines 748-755):
ensure the key, append the entry, truncate to the newest `limitOf rt`. -/
def histAppend (rt : String) (e : HistoryEntry) (h : HStore) : HStore :=
  let cur := (hLookup rt h).getD []
  hSet rt (pySliceLast (limitOf rt) (cur ++ [e])) h

/-! ## Context accumulator (`get_accumulated_context`, main.py lines 701-726) -/

/-- The `context_map` lookup of main.py lines 705-714. -/
def contextMapLookup : String → Option (String × Nat)
  | "weekly" => some ("daily", 7)
  | "monthly" => some ("weekly", 4)
  | "quarterly" => some ("monthly", 3)
  | "semi_annual" => some ("quarterly", 2)
  | "annual" => some ("semi_annual", 2)
  | _ => none

/-- `get_accumulated_context` (main.py lines 701-726).  The entries of the
store are well-typed records, so the `entry.get(..., "N/A")` defaults of the
source never fire and are not modelled. -/
def get_accumulated_context (report_type : String) (history : HStore) : String :=
  match contextMapLookup report_type with
  | none => ""
  | some (source_type, count) =>
      let entries := pySliceLast count ((hLookup source_type history).getD [])
      if entries = [] then ""
      else
        entries.foldl
          (fun acc e => acc ++ ("- " ++ e.date ++ ": " ++ e.summary ++ "\n"))
          ("[최근 " ++ toString entries.length ++ "건의 " ++ source_type ++ " 리포트 요약]\n")

/-! ## Report-body cleaning and the Tier-2 result (main.py lines 46-52, 542-580) -/

/-- The whitespace set stripped by `str.strip` that occurs in this
program.  -/
def isPySpace (c : Char) : Bool :=
  c = ' ' || c = '\t' || c = '\n' || c = '\r'

/-- `str.strip()` modelled on the character list. -/
def pyStrip (s : String) : String :=
  String.mk (((s.toList.dropWhile isPySpace).reverse.dropWhile isPySpace).reverse)

/-- `clean_report_body` (main.py lines 46-52): replace the no-break space
with a plain space and strip.  The NFKC normalization step is the identity
on every precomposed string considered here and is elided. -/
def clean_report_body (s : String) : String :=
  pyStrip (String.mk (s.toList.map (fun c => if c = Char.ofNat 160 then ' ' else c)))

/-- The error marker that `main` tests the report body for
(main.py lines 580 and 806). -/
def errorMarker : String := "분석 오류"

/-- Python substring membership `needle in hay`. -/
def strIn (needle hay : String) : Prop :=
  needle.toList <:+: hay.toList

instance (n h : String) : Decidable (strIn n h) :=
  List.decidableInfix _ _

/-- The report text `tier2_analyze` produces from the analysis
collaborator outcome (main.py lines 572-580): the cleaned response text on
success, the error report (whose traceback tail is elided) on failure. -/
def tier2_result : Except String String → String
  | .ok t => clean_report_body t
  | .error e => "<h3>분석 오류</h3><p>" ++ e ++ "</p>"

/-! ## Summary compression and persistence (`save_report_summary`, lines 728-755) -/

/-- `save_report_summary` (main.py lines 728-755), with the compression
collaborator as an oracle mapping the request excerpt to its outcome
(`none` is any exception of the call). -/
def save_report_summary (report_type : String) (report_body : String)
    (compress : String → Option String) (dateLabel : String)
    (history : HStore) : HStore :=
  let summary :=
    match compress (report_body.take 3000) with
    | some s => pyStrip s
    | none => "요약 생성 실패"
  histAppend report_type { date := dateLabel, summary := summary } history

/-! ## Orchestrator (`main`, main.py lines 761-819) -/

/-- The two collaborator oracles the per-cadence loop consults: the
analysis call outcome as a function of the report type and the accumulated
context (the selected news being fixed for the whole run), and the
compression call outcome as a function of the request excerpt. -/
structure CadOracle where
  analyze : String → String → Except String String
  compress : String → Option String

/-- The state threaded through the per-cadence loop: the in-memory history
and the report types delivered so far. -/
structure RunState where
  history : HStore
  delivered : List String
deriving DecidableEq

/-- One iteration of the loop of main.py lines 801-815 for one report
type. -/
def runCadence (o : CadOracle) (dateLabel : String) (st : RunState)
    (rt : String) : RunState :=
  let ctx := get_accumulated_context rt st.history
  let body := tier2_result (o.analyze rt ctx)
  if body ≠ "" ∧ ¬ strIn errorMarker body then
    { history := save_report_summary rt body o.compress dateLabel st.history
      delivered := st.delivered ++ [rt] }
  else st

/-- The whole per-cadence loop. -/
def runCadences (o : CadOracle) (dateLabel : String) (rts : List String)
    (st : RunState) : RunState :=
  rts.foldl (runCadence o dateLabel) st

/-- `main` (main.py lines 761-819) from the report-type decision onward:
`none` models a return before the final `save_history` call (missing
credentials, zero ingested items, empty selection); `some` carries the
history that is saved at the end together with the delivered report
types. -/
def mainModel (apiKeySet emailSet : Bool) (now : Date) (dateLabel : String)
    (news : List Item) (scoreOracle : Nat → BatchResponse) (o : CadOracle)
    (h0 : HStore) : Option (HStore × List String) :=
  if apiKeySet then
    if emailSet then
      let rts := determine_report_types now
      if news = [] then none
      else
        let top := tier1_filter news scoreOracle
        if top = [] then none
        else
          let fin := runCadences o dateLabel rts { history := h0, delivered := [] }
          some (fin.history, fin.delivered)
    else none
  else none

/-! ## Persisted history document (`load_history` / `save_history`, lines 54-62) -/

/-- A JSON document, as read and written by the json module. -/
inductive JsonVal where
  | str (s : String) : JsonVal
  | num (n : Int) : JsonVal
  | bool (b : Bool) : JsonVal
  | null : JsonVal
  | arr (elems : List JsonVal) : JsonVal
  | obj (fields : List (String × JsonVal)) : JsonVal

/-- The JSON object `json.dump` writes for one history entry. -/
def encodeEntry (e : HistoryEntry) : JsonVal :=
  .obj [("date", .str e.date), ("summary", .str e.summary)]

/-- The JSON document `save_history` writes (main.py lines 60-62), with the
byte-level serialization of the json module elided: `json.dump` maps the
dict of lists of records onto exactly this object, key order preserved. -/
def save_history (h : HStore) : JsonVal :=
  .obj (h.map (fun p => (p.1, .arr (p.2.map encodeEntry))))

/-- Structure recovery for one entry object. -/
def decodeEntry : JsonVal → Option HistoryEntry
  | .obj [("date", .str d), ("summary", .str s)] => some { date := d, summary := s }
  | _ => none

/-- Structure recovery for an entry array. -/
def decodeEntries : List JsonVal → Option (List HistoryEntry)
  | [] => some []
  | j :: js =>
      match decodeEntry j, decodeEntries js with
      | some e, some es => some (e :: es)
      | _, _ => none

/-- Structure recovery for the top-level object. -/
def decodeFields : List (String × JsonVal) → Option HStore
  | [] => some []
  | (k, .arr js) :: rest =>
      match decodeEntries js, decodeFields rest with
      | some es, some h => some ((k, es) :: h)
      | _, _ => none
  | _ => none

/-- The history store a parsed document denotes. -/
def decodeHistory : JsonVal → Option HStore
  | .obj fields => decodeFields fields
  | _ => none

/-- The default store of main.py line 58. -/
def defaultHistory : HStore :=
  [("daily", []), ("weekly", []), ("monthly", []), ("quarterly", []),
   ("semi_annual", []), ("annual", [])]

/-- `load_history` (main.py lines 54-58): the parsed file when it exists,
the default store otherwise; `none` models a parse failure. -/
def load_history (file : Option JsonVal) : Option HStore :=
  match file with
  | some j => decodeHistory j
  | none => some defaultHistory

/-! ## Helper lemmas -/

theorem hLookup_hSet_self (k : String) (v : List HistoryEntry) (h : HStore) :
    hLookup k (hSet k v h) = some v := by
  induction h with
  | nil => simp [hSet, hLookup]
  | cons p rest ih =>
      obtain ⟨k2, v2⟩ := p
      by_cases hk : k2 = k
      · simp [hSet, hLookup, hk]
      · simp [hSet, hLookup, hk, ih]

theorem pySliceLast_length (n : Nat) (hn : n ≠ 0) (l : List α) :
    (pySliceLast n l).length = min n l.length := by
  simp only [pySliceLast, if_neg hn, List.length_drop]
  omega

theorem pySliceLast_getLast? (n : Nat) (hn : n ≠ 0) (l : List α) (hl : l ≠ []) :
    (pySliceLast n l).getLast? = l.getLast? := by
  simp only [pySliceLast, if_neg hn, List.getLast?_drop]
  have : ¬ l.length ≤ l.length - n := by
    have : 0 < l.length := List.length_pos.mpr hl
    omega
  simp [this]

theorem limitOf_pos (rt : String) : 0 < limitOf rt := by
  unfold limitOf
  split_ifs <;> norm_num

theorem histAppend_lookup (rt : String) (e : HistoryEntry) (h : HStore) :
    hLookup rt (histAppend rt e h) =
      some (pySliceLast (limitOf rt) ((hLookup rt h).getD [] ++ [e])) := by
  simp [histAppend, hLookup_hSet_self]

theorem histAppend_bound (rt : String) (e : HistoryEntry) (h : HStore) :
    ((hLookup rt (histAppend rt e h)).getD []).length ≤ limitOf rt := by
  rw [histAppend_lookup]
  have hp := limitOf_pos rt
  rw [Option.getD_some, pySliceLast_length _ (by omega)]
  omega

theorem strFoldl :
    ∀ (l : List String) (acc : String),
      l.foldl (fun a x => a ++ x) acc = acc ++ String.join l := by
  intro l
  induction l with
  | nil => intro acc; simp [String.join]
  | cons s t ih =>
      intro acc
      have hjoin : String.join (s :: t) = s ++ String.join t := by
        show List.foldl (fun a x => a ++ x) ("" ++ s) t = s ++ String.join t
        rw [ih ("" ++ s)]
        congr 1
      simp only [List.foldl_cons, hjoin]
      rw [ih (acc ++ s)]
      simp [String.append_assoc]

theorem strFoldAppend (f : α → String) (l : List α) (acc : String) :
    l.foldl (fun a x => a ++ f x) acc = acc ++ String.join (l.map f) := by
  rw [← List.foldl_map, strFoldl]

theorem decodeEntries_encode (es : List HistoryEntry) :
    decodeEntries (es.map encodeEntry) = some es := by
  induction es with
  | nil => rfl
  | cons e t ih => simp [decodeEntries, decodeEntry, encodeEntry, ih]

theorem decodeFields_encode (h : HStore) :
    decodeFields (h.map (fun p => (p.1, .arr (p.2.map encodeEntry)))) = some h := by
  induction h with
  | nil => rfl
  | cons p rest ih => simp [decodeFields, decodeEntries_encode, ih]

/-- C9: for every history store value, saving it with `save_history` and
then loading it with `load_history` reproduces an equal structure: the same
cadence keys, the same entries per cadence, in the same order. -/
theorem history_save_load_roundtrip (h : HStore) :
    load_history (some (save_history h)) = some h := by
  simp [load_history, save_history, decodeHistory, decodeFields_encode]

/-- C5: after every append of a history entry for a cadence (the history
mutation of `save_report_summary`), the stored sequence for that cadence is
the newest-entries suffix of the appended sequence and contains at most the
per-cadence retention limit (daily 30, weekly 12, monthly 12, quarterly 8,
semi_annual 4, annual 3) entries, and the bound holds after any number of
appends in sequence since it holds for every single append from an
arbitrary prior store. -/
theorem history_retention_bound :
    (limitOf "daily" = 30 ∧ limitOf "weekly" = 12 ∧ limitOf "monthly" = 12 ∧
      limitOf "quarterly" = 8 ∧ limitOf "semi_annual" = 4 ∧ limitOf "annual" = 3)
    ∧ (∀ (rt : String) (e : HistoryEntry) (h : HStore),
        hLookup rt (histAppend rt e h) =
          some (pySliceLast (limitOf rt) ((hLookup rt h).getD [] ++ [e])))
    ∧ (∀ (rt : String) (e : HistoryEntry) (h : HStore),
        ((hLookup rt (histAppend rt e h)).getD []).length ≤ limitOf rt)
    ∧ (∀ (rt : String) (es : List HistoryEntry) (e : HistoryEntry) (h : HStore),
        ((hLookup rt ((es ++ [e]).foldl (fun acc x => histAppend rt x acc) h)).getD []).length
          ≤ limitOf rt)
    ∧ (∀ (rt body dateLabel : String) (compress : String → Option String) (h : HStore),
        ((hLookup rt (save_report_summary rt body compress dateLabel h)).getD []).length
          ≤ limitOf rt) := by
  refine ⟨⟨rfl, rfl, rfl, rfl, rfl, rfl⟩, histAppend_lookup, histAppend_bound, ?_, ?_⟩
  · intro rt es e h
    rw [List.foldl_append, List.foldl_cons, List.foldl_nil]
    exact histAppend_bound rt e _
  · intro rt body dateLabel compress h
    unfold save_report_summary
    exact histAppend_bound rt _ h

/-- C7: if summary compression fails, `save_report_summary` still appends a
history entry for the cadence whose summary is the fixed sentinel text, so
the entry is neither dropped nor does the failure propagate (the embedding
is total). -/
theorem compression_failure_appends_sentinel
    (rt body dateLabel : String) (compress : String → Option String) (h : HStore)
    (hfail : compress (body.take 3000) = none) :
    save_report_summary rt body compress dateLabel h =
      histAppend rt { date := dateLabel, summary := "요약 생성 실패" } h
    ∧ ((hLookup rt (save_report_summary rt body compress dateLabel h)).getD []).getLast?
        = some { date := dateLabel, summary := "요약 생성 실패" } := by
  have heq : save_report_summary rt body compress dateLabel h =
      histAppend rt { date := dateLabel, summary := "요약 생성 실패" } h := by
    unfold save_report_summary
    rw [hfail]
  refine ⟨heq, ?_⟩
  rw [heq, histAppend_lookup, Option.getD_some,
    pySliceLast_getLast? _ (by have := limitOf_pos rt; omega) _ (by simp),
    List.getLast?_concat]

/-- C7 witness: the theorem applied at a concrete cadence, report body,
always-failing compressor and starting store. -/
theorem compression_failure_appends_sentinel_witness :
    save_report_summary "daily" "body" (fun _ => none) "2025-10-12" defaultHistory =
      histAppend "daily" { date := "2025-10-12", summary := "요약 생성 실패" } defaultHistory
    ∧ ((hLookup "daily" (save_report_summary "daily" "body" (fun _ => none) "2025-10-12"
          defaultHistory)).getD []).getLast?
        = some { date := "2025-10-12", summary := "요약 생성 실패" } :=
  compression_failure_appends_sentinel "daily" "body" "2025-10-12" (fun _ => none)
    defaultHistory rfl

/-- C6: the context accumulator returns empty text for the daily cadence;
for any other cadence it takes the last `count` entries of the source
cadence given by the fixed table weekly←(daily,7), monthly←(weekly,4),
quarterly←(monthly,3), semi_annual←(quarterly,2), annual←(semi_annual,2),
returns empty text when no such entries exist (it is total, hence never an
error), and otherwise renders them in their stored order as a bulleted
"date: summary" block. -/
theorem accumulated_context_spec :
    (∀ h : HStore, get_accumulated_context "daily" h = "")
    ∧ contextMapLookup "weekly" = some ("daily", 7)
    ∧ contextMapLookup "monthly" = some ("weekly", 4)
    ∧ contextMapLookup "quarterly" = some ("monthly", 3)
    ∧ contextMapLookup "semi_annual" = some ("quarterly", 2)
    ∧ contextMapLookup "annual" = some ("semi_annual", 2)
    ∧ contextMapLookup "daily" = none
    ∧ (∀ (rt src : String) (count : Nat) (h : HStore),
        contextMapLookup rt = some (src, count) →
          ((hLookup src h).getD [] = [] → get_accumulated_context rt h = "")
          ∧ (pySliceLast count ((hLookup src h).getD []) ≠ [] →
              get_accumulated_context rt h =
                "[최근 " ++ toString (pySliceLast count ((hLookup src h).getD [])).length ++
                  "건의 " ++ src ++ " 리포트 요약]\n" ++
                  String.join ((pySliceLast count ((hLookup src h).getD [])).map
                    (fun e => "- " ++ e.date ++ ": " ++ e.summary ++ "\n")))) := by
  refine ⟨?_, rfl, rfl, rfl, rfl, rfl, rfl, ?_⟩
  · intro h
    rfl
  · intro rt src count h hmap
    constructor
    · intro hempty
      unfold get_accumulated_context
      rw [hmap]
      dsimp only
      rw [hempty]
      simp [pySliceLast]
    · intro hne
      unfold get_accumulated_context
      rw [hmap]
      dsimp only
      rw [if_neg hne]
      rw [strFoldAppend]

/-- C6 witness: the theorem applied to the weekly cadence over a store with
one daily entry. -/
theorem accumulated_context_spec_witness :
    get_accumulated_context "weekly" [("daily", [{ date := "d1", summary := "s1" }])] =
      "[최근 " ++
        toString (pySliceLast 7 ((hLookup "daily"
          [("daily", [{ date := "d1", summary := "s1" }])]).getD [])).length ++
        "건의 " ++ "daily" ++ " 리포트 요약]\n" ++
        String.join ((pySliceLast 7 ((hLookup "daily"
            [("daily", [{ date := "d1", summary := "s1" }])]).getD [])).map
          (fun e => "- " ++ e.date ++ ": " ++ e.summary ++ "\n")) :=
  (accumulated_context_spec.2.2.2.2.2.2.2 "weekly" "daily" 7
    [("daily", [{ date := "d1", summary := "s1" }])] rfl).2 (by decide)

/-- C4: `determine_report_types` is a pure deterministic function of the
given date; daily is always present and first; weekly is present iff the
date is a Saturday; monthly iff day-of-month is 1; quarterly iff month is
in 1, 4, 7, 10 and day is 1; semi_annual iff month is in 1, 7 and day is 1;
annual iff month is 1 and day is 1; the output is always the fixed sequence
daily, weekly, monthly, quarterly, semi_annual, annual restricted to the
cadences due; 2025-01-01 (a Wednesday) yields daily, monthly, quarterly,
semi_annual, annual and 2025-11-01 (a Saturday) yields daily, weekly,
monthly. -/
theorem schedule_engine_spec :
    (∀ d : Date, determine_report_types d = allCadences.filter (cadenceDue d))
    ∧ (∀ d : Date, (determine_report_types d).head? = some "daily")
    ∧ (∀ d : Date, ("weekly" ∈ determine_report_types d ↔ pyWeekday d = 5))
    ∧ (∀ d : Date, ("monthly" ∈ determine_report_types d ↔ d.day = 1))
    ∧ (∀ d : Date, ("quarterly" ∈ determine_report_types d ↔
        (d.month = 1 ∨ d.month = 4 ∨ d.month = 7 ∨ d.month = 10) ∧ d.day = 1))
    ∧ (∀ d : Date, ("semi_annual" ∈ determine_report_types d ↔
        (d.month = 1 ∨ d.month = 7) ∧ d.day = 1))
    ∧ (∀ d : Date, ("annual" ∈ determine_report_types d ↔ d.month = 1 ∧ d.day = 1))
    ∧ determine_report_types ⟨2025, 1, 1⟩ =
        ["daily", "monthly", "quarterly", "semi_annual", "annual"]
    ∧ determine_report_types ⟨2025, 11, 1⟩ = ["daily", "weekly", "monthly"] := by
  have hfilter : ∀ d : Date, determine_report_types d = allCadences.filter (cadenceDue d) := by
    intro d
    by_cases h1 : pyWeekday d = 5 <;>
    by_cases h2 : d.day = 1 <;>
    by_cases h3 : d.month = 1 <;>
    by_cases h4 : d.month = 4 <;>
    by_cases h5 : d.month = 7 <;>
    by_cases h6 : d.month = 10 <;>
    simp_all [determine_report_types, allCadences, cadenceDue, List.filter]
  refine ⟨hfilter, ?_, ?_, ?_, ?_, ?_, ?_, by decide, by decide⟩
  · intro d
    unfold determine_report_types
    split_ifs <;> rfl
  · intro d
    rw [hfilter]
    simp [allCadences, cadenceDue, List.mem_filter]
  · intro d
    rw [hfilter]
    simp [allCadences, cadenceDue, List.mem_filter]
  · intro d
    rw [hfilter]
    simp [allCadences, cadenceDue, List.mem_filter]
  · intro d
    rw [hfilter]
    simp [allCadences, cadenceDue, List.mem_filter]
  · intro d
    rw [hfilter]
    simp [allCadences, cadenceDue, List.mem_filter]

theorem strIn_append_left {needle a : String} (b : String) (h : strIn needle a) :
    strIn needle (a ++ b) := by
  unfold strIn at *
  obtain ⟨s, t, hst⟩ := h
  refine ⟨s, t ++ b.toList, ?_⟩
  have : (a ++ b).toList = a.toList ++ b.toList := rfl
  rw [this, ← hst]
  simp [List.append_assoc]

theorem marker_in_error_report (e : String) :
    strIn errorMarker (tier2_result (.error e)) := by
  show strIn errorMarker ("<h3>분석 오류</h3><p>" ++ e ++ "</p>")
  apply strIn_append_left
  apply strIn_append_left
  decide

theorem runCadence_skip (o : CadOracle) (dl : String) (st : RunState) (rt : String)
    (hb : tier2_result (o.analyze rt (get_accumulated_context rt st.history)) = "" ∨
      strIn errorMarker (tier2_result (o.analyze rt (get_accumulated_context rt st.history)))) :
    runCadence o dl st rt = st := by
  unfold runCadence
  rw [if_neg]
  rintro ⟨h1, h2⟩
  rcases hb with hb | hb
  · exact h1 hb
  · exact h2 hb

theorem runCadences_split (o : CadOracle) (dl : String) (l1 l2 : List String)
    (st : RunState) :
    runCadences o dl (l1 ++ l2) st = runCadences o dl l2 (runCadences o dl l1 st) := by
  unfold runCadences
  exact List.foldl_append _ _ _ _

theorem runCadences_all_fail (o : CadOracle) (dl : String) (rts : List String)
    (st : RunState) (hfail : ∀ rt ctx, ∃ e, o.analyze rt ctx = .error e) :
    runCadences o dl rts st = st := by
  induction rts with
  | nil => rfl
  | cons rt rest ih =>
      unfold runCadences at *
      rw [List.foldl_cons]
      have hskip : runCadence o dl st rt = st := by
        apply runCadence_skip
        right
        obtain ⟨e, he⟩ := hfail rt (get_accumulated_context rt st.history)
        rw [he]
        exact marker_in_error_report e
      rw [hskip, ih]

/-- C8: in the per-cadence loop of `main`, a cadence whose report carries
the error marker is skipped for both delivery and summarization (its loop
iteration is the identity on the run state), every other due cadence still
proceeds (removing the failed cadence from the schedule gives the same
final state), and the history store is saved exactly once at the end
whenever ingestion and selection both produced non-empty results, even if
every individual cadence fails. -/
theorem orchestrator_failure_policy :
    (∀ (o : CadOracle) (dl : String) (st : RunState) (rt : String),
        strIn errorMarker
            (tier2_result (o.analyze rt (get_accumulated_context rt st.history))) →
        runCadence o dl st rt = st)
    ∧ (∀ (o : CadOracle) (dl : String) (pre post : List String) (rt : String)
        (st : RunState),
        strIn errorMarker (tier2_result (o.analyze rt
            (get_accumulated_context rt (runCadences o dl pre st).history))) →
        runCadences o dl (pre ++ rt :: post) st = runCadences o dl (pre ++ post) st)
    ∧ (∀ (now : Date) (dl : String) (news : List Item) (so : Nat → BatchResponse)
        (o : CadOracle) (h0 : HStore),
        news ≠ [] → tier1_filter news so ≠ [] →
        mainModel true true now dl news so o h0 =
          some ((runCadences o dl (determine_report_types now)
                  { history := h0, delivered := [] }).history,
                (runCadences o dl (determine_report_types now)
                  { history := h0, delivered := [] }).delivered))
    ∧ (∀ (now : Date) (dl : String) (news : List Item) (so : Nat → BatchResponse)
        (o : CadOracle) (h0 : HStore),
        news ≠ [] → tier1_filter news so ≠ [] →
        (∀ rt ctx, ∃ e, o.analyze rt ctx = .error e) →
        mainModel true true now dl news so o h0 = some (h0, [])) := by
  have hmain : ∀ (now : Date) (dl : String) (news : List Item)
      (so : Nat → BatchResponse) (o : CadOracle) (h0 : HStore),
      news ≠ [] → tier1_filter news so ≠ [] →
      mainModel true true now dl news so o h0 =
        some ((runCadences o dl (determine_report_types now)
                { history := h0, delivered := [] }).history,
              (runCadences o dl (determine_report_types now)
                { history := h0, delivered := [] }).delivered) := by
    intro now dl news so o h0 hnews htop
    unfold mainModel
    simp [hnews, htop]
  refine ⟨?_, ?_, hmain, ?_⟩
  · intro o dl st rt hmark
    exact runCadence_skip o dl st rt (Or.inr hmark)
  · intro o dl pre post rt st hmark
    rw [runCadences_split o dl pre (rt :: post) st,
      runCadences_split o dl pre post st]
    show runCadences o dl (rt :: post) (runCadences o dl pre st) = _
    unfold runCadences
    rw [List.foldl_cons]
    have hskip := runCadence_skip o dl (runCadences o dl pre st) rt (Or.inr hmark)
    unfold runCadences at hskip
    rw [hskip]
  · intro now dl news so o h0 hnews htop hfail
    rw [hmain now dl news so o h0 hnews htop,
      runCadences_all_fail o dl _ _ hfail]

/-- C8 witness: the theorem applied to a run on 2025-01-01 with one news
item, a scoring oracle that always fails over to the fallback, and an
analysis collaborator that always fails: the run still ends with the
loaded history saved unchanged and nothing delivered. -/
theorem orchestrator_failure_policy_witness :
    mainModel true true ⟨2025, 1, 1⟩ "2025-01-01" [dummyItem] (fun _ => .callFailure)
        { analyze := fun _ _ => .error "boom", compress := fun _ => some "s" }
        defaultHistory = some (defaultHistory, []) := by
  apply orchestrator_failure_policy.2.2.2 ⟨2025, 1, 1⟩ "2025-01-01" [dummyItem]
    (fun _ => .callFailure)
    { analyze := fun _ _ => .error "boom", compress := fun _ => some "s" }
    defaultHistory
  · simp
  · show tier1_select (tier1_scored [dummyItem] (fun _ => .callFailure)) ≠ []
    have hch : chunks 20 [dummyItem] = [[dummyItem]] := by
      rw [chunks, chunks]
      simp
    have hsc : tier1_scored [dummyItem] (fun _ => .callFailure) =
        [{ item := dummyItem, score := 50, filter_reason := "" }] := by
      unfold tier1_scored batchResults
      rw [hch]
      rfl
    rw [hsc]
    simp [tier1_select, sortByScoreDesc, topCount]
  · intro rt ctx
    exact ⟨"boom", rfl⟩

/-- C10: the orchestrator classifies a cadence as failed purely by a
substring test on the report text: for a successfully generated report
whose cleaned body happens to contain the error marker, the loop iteration
is the identity on the run state (no delivery, no history entry), exactly
as if analysis had failed. -/
theorem success_report_with_marker_is_skipped (o : CadOracle) (dl rt : String)
    (st : RunState) (body : String)
    (hok : o.analyze rt (get_accumulated_context rt st.history) = .ok body)
    (hmark : strIn errorMarker (clean_report_body body)) :
    tier2_result (o.analyze rt (get_accumulated_context rt st.history)) =
      clean_report_body body
    ∧ runCadence o dl st rt = st := by
  constructor
  · rw [hok]
    rfl
  · apply runCadence_skip
    right
    rw [hok]
    exact hmark

/-- C10 witness: a successful analysis response whose body mentions the
marker text is dropped: the run state is unchanged. -/
theorem success_report_with_marker_is_skipped_witness :
    tier2_result (CadOracle.analyze
        { analyze := fun _ _ => .ok "<p>분석 오류 관련 뉴스</p>",
          compress := fun _ => some "s" } "daily"
        (get_accumulated_context "daily"
          (RunState.mk defaultHistory []).history)) =
      clean_report_body "<p>분석 오류 관련 뉴스</p>"
    ∧ runCadence
        { analyze := fun _ _ => .ok "<p>분석 오류 관련 뉴스</p>",
          compress := fun _ => some "s" } "2025-01-01"
        (RunState.mk defaultHistory []) "daily" = RunState.mk defaultHistory [] :=
  success_report_with_marker_is_skipped
    { analyze := fun _ _ => .ok "<p>분석 오류 관련 뉴스</p>",
      compress := fun _ => some "s" } "2025-01-01" "daily"
    (RunState.mk defaultHistory []) "<p>분석 오류 관련 뉴스</p>" rfl (by decide)

/-- C3: for every sequence of scored items, the top-fraction selector
returns exactly the first min(len, max(3, floor(0.05 * len))) items of the
input stably sorted by score descending, so the returned scores are
non-increasing, the output is never shorter than min(3, len), the sort is a
permutation of the input, ties keep their original relative order (a pair
in order in the input whose relation holds stays in order in the sorted
sequence), and the empty input yields the empty output. -/
theorem tier1_select_spec :
    (∀ s : List ScoredItem,
        tier1_select s = (sortByScoreDesc s).take (max 3 (s.length / 20))
        ∧ (tier1_select s).length = min s.length (max 3 (s.length / 20))
        ∧ List.Perm (sortByScoreDesc s) s
        ∧ (tier1_select s).Pairwise (fun a b => b.score ≤ a.score)
        ∧ min 3 s.length ≤ (tier1_select s).length)
    ∧ (∀ (s : List ScoredItem) (a b : ScoredItem),
        b.score ≤ a.score → List.Sublist [a, b] s →
          List.Sublist [a, b] (sortByScoreDesc s))
    ∧ tier1_select ([] : List ScoredItem) = [] := by
  have htrans : ∀ (a b c : ScoredItem),
      (fun a b => decide (b.score ≤ a.score)) a b →
      (fun a b => decide (b.score ≤ a.score)) b c →
      (fun a b => decide (b.score ≤ a.score)) a c := by
    intro a b c hab hbc
    simp only [decide_eq_true_eq] at *
    exact le_trans hbc hab
  have htotal : ∀ (a b : ScoredItem),
      ((fun a b => decide (b.score ≤ a.score)) a b ||
        (fun a b => decide (b.score ≤ a.score)) b a) := by
    intro a b
    simp only [Bool.or_eq_true, decide_eq_true_eq]
    exact le_total b.score a.score
  refine ⟨?_, ?_, by simp [tier1_select, sortByScoreDesc, topCount]⟩
  · intro s
    have hlen : (tier1_select s).length = min s.length (max 3 (s.length / 20)) := by
      simp [tier1_select, sortByScoreDesc, topCount, List.length_take, Nat.min_comm]
    refine ⟨rfl, hlen, List.mergeSort_perm s _, ?_, ?_⟩
    · have hsorted := List.sorted_mergeSort htrans htotal s
      have hsub : List.Sublist (tier1_select s) (sortByScoreDesc s) := List.take_sublist _ _
      exact (List.Pairwise.sublist hsub hsorted).imp (fun h => of_decide_eq_true h)
    · rw [hlen]
      omega
  · intro s a b hab hsub
    exact List.pair_sublist_mergeSort htrans htotal (decide_eq_true hab) hsub

/-- C3 witness: the theorem applied to a two-element tie: both orders of
the tied pair are preserved by the sort. -/
theorem tier1_select_spec_witness :
    List.Sublist [ScoredItem.mk dummyItem 50 "a", ScoredItem.mk dummyItem 50 "b"]
      (sortByScoreDesc [ScoredItem.mk dummyItem 50 "a", ScoredItem.mk dummyItem 50 "b"]) :=
  tier1_select_spec.2.1 [ScoredItem.mk dummyItem 50 "a", ScoredItem.mk dummyItem 50 "b"]
    (ScoredItem.mk dummyItem 50 "a") (ScoredItem.mk dummyItem 50 "b")
    (le_refl 50) (List.Sublist.refl _)

/-- C2: the per-batch failure policy: a failed call or a JSON-less response
makes every item of that batch appear in the output with fallback score 50
(so a fully-failing batch contributes exactly its own length); in the
success path, returned records whose id lies outside the batch bounds are
ignored, every emitted item arises from some returned in-range record (an
item the collaborator does not return is absent), and the output segment of
one batch depends only on that batch and its own response, so a failure in
one batch never changes the output of another. -/
theorem batch_failure_policy :
    (∀ b : List Item,
        scoreBatch b .callFailure = fallbackScore b
        ∧ scoreBatch b .noJson = fallbackScore b
        ∧ (fallbackScore b).length = b.length
        ∧ (∀ x ∈ fallbackScore b, x.score = 50))
    ∧ (∀ (b : List Item) (es : List ScoreEntry),
        scoreBatch b (.success es) = scoreBatch b (.success (es.filter (validId b))))
    ∧ (∀ (b : List Item) (es : List ScoreEntry),
        (scoreBatch b (.success es)).length = (es.filter (validId b)).length)
    ∧ (∀ (b : List Item) (es : List ScoreEntry) (x : ScoredItem),
        x ∈ scoreBatch b (.success es) →
        ∃ e, e ∈ es ∧ validId b e = true ∧ x.item = b.getD e.id.toNat dummyItem)
    ∧ (∀ (news : List Item) (o : Nat → BatchResponse),
        tier1_scored news o = (batchResults news o).flatten)
    ∧ (∀ (news : List Item) (o o2 : Nat → BatchResponse) (i : Nat),
        o i = o2 i →
        (batchResults news o).getD i [] = (batchResults news o2).getD i []) := by
  refine ⟨?_, ?_, ?_, ?_, fun news o => rfl, ?_⟩
  · intro b
    refine ⟨rfl, rfl, by simp [fallbackScore], ?_⟩
    intro x hx
    simp only [fallbackScore, List.mem_map] at hx
    obtain ⟨it, _, hxe⟩ := hx
    rw [← hxe]
  · intro b es
    have hff : (es.filter (validId b)).filter (validId b) = es.filter (validId b) := by
      rw [List.filter_filter]
      congr 1
      funext a
      exact Bool.and_self _
    simp only [scoreBatch, hff]
  · intro b es
    simp [scoreBatch]
  · intro b es x hx
    simp only [scoreBatch, List.mem_map] at hx
    obtain ⟨e, he, hxe⟩ := hx
    rw [List.mem_filter] at he
    exact ⟨e, he.1, he.2, by rw [← hxe]⟩
  · intro news o o2 i h
    unfold batchResults List.enum
    rw [List.getD_eq_getElem?_getD, List.getD_eq_getElem?_getD,
      List.getElem?_map, List.getElem?_map, List.getElem?_enumFrom]
    cases hc : (chunks 20 news)[i]? with
    | none => simp [hc]
    | some b => simp [hc, h]

/-- C2 witness: the batch-independence clause applied at a concrete input:
two oracles that agree on batch 0 produce the same segment for batch 0. -/
theorem batch_failure_policy_witness :
    (batchResults [dummyItem] (fun _ => BatchResponse.callFailure)).getD 0 [] =
      (batchResults [dummyItem]
        (fun n => if n = 0 then BatchResponse.callFailure else BatchResponse.noJson)).getD 0 [] :=
  batch_failure_policy.2.2.2.2.2 [dummyItem] (fun _ => BatchResponse.callFailure)
    (fun n => if n = 0 then BatchResponse.callFailure else BatchResponse.noJson) 0 rfl

/-- C1 counterexample: a single-item input whose batch response is valid
JSON with an empty scores array yields an empty scored output, so the
scored output does NOT always have the same length as the input. -/
theorem tier1_scored_length_counterexample :
    (tier1_scored [dummyItem] (fun _ => BatchResponse.success [])).length = 0
    ∧ ([dummyItem] : List Item).length = 1 := by
  have hch : chunks 20 [dummyItem] = [[dummyItem]] := by
    rw [chunks, chunks]
    simp
  constructor
  · unfold tier1_scored batchResults
    rw [hch]
    rfl
  · rfl

theorem chunks_flatten (n : Nat) (hn : n ≠ 0) (l : List α) :
    (chunks n l).flatten = l := by
  by_cases hl : l.isEmpty
  · rw [List.isEmpty_iff] at hl
    subst hl
    rw [chunks]
    simp
  · rw [chunks, dif_neg (not_or.mpr ⟨hl, hn⟩)]
    have ih := chunks_flatten n hn (l.drop n)
    simp [ih]
termination_by l.length
decreasing_by
  simp only [List.length_drop]
  have h1 : 0 < l.length := by
    cases l with
    | nil => simp at hl
    | cons a t => simp
  omega

theorem getD_range_map (l : List α) (d : α) :
    (List.range l.length).map (fun i => l.getD i d) = l := by
  induction l with
  | nil => rfl
  | cons a t ih =>
      rw [List.length_cons, List.range_succ_eq_map]
      simp only [List.map_cons, List.map_map]
      show a :: _ = a :: t
      have hcomp : ((fun i => (a :: t).getD i d) ∘ Nat.succ) = (fun i => t.getD i d) := by
        funext i
        rfl
      rw [hcomp, ih]

theorem scoreBatch_ok (b : List Item) (r : BatchResponse) (h : respOk b r) :
    (scoreBatch b r).length = b.length ∧
    List.Perm ((scoreBatch b r).map (fun x => x.item)) b := by
  cases r with
  | callFailure =>
      refine ⟨by simp [scoreBatch, fallbackScore], ?_⟩
      show List.Perm ((fallbackScore b).map (fun x => x.item)) b
      rw [fallbackScore, List.map_map]
      have hid : ((fun x : ScoredItem => x.item) ∘
          (fun it => ScoredItem.mk it 50 "")) = id := by
        funext it
        rfl
      rw [hid, List.map_id]
  | noJson =>
      refine ⟨by simp [scoreBatch, fallbackScore], ?_⟩
      show List.Perm ((fallbackScore b).map (fun x => x.item)) b
      rw [fallbackScore, List.map_map]
      have hid : ((fun x : ScoredItem => x.item) ∘
          (fun it => ScoredItem.mk it 50 "")) = id := by
        funext it
        rfl
      rw [hid, List.map_id]
  | success es =>
      unfold respOk at h
      have hvalid : ∀ e ∈ es, validId b e = true := by
        intro e he
        have hmem : e.id ∈ (List.range b.length).map (fun n : Nat => (n : Int)) :=
          h.mem_iff.mp (List.mem_map_of_mem _ he)
        simp only [List.mem_map, List.mem_range] at hmem
        obtain ⟨n, hn, hne⟩ := hmem
        unfold validId
        simp only [Bool.and_eq_true, decide_eq_true_eq]
        rw [← hne]
        omega
      have hfe : es.filter (validId b) = es := List.filter_eq_self.mpr hvalid
      have hlen : es.length = b.length := by
        have := h.length_eq
        simpa using this
      constructor
      · simp [scoreBatch, hfe, hlen]
      · simp only [scoreBatch, hfe, List.map_map]
        have h2 := h.map (fun i : Int => b.getD i.toNat dummyItem)
        rw [List.map_map, List.map_map] at h2
        have h3 : (List.range b.length).map
            ((fun i : Int => b.getD i.toNat dummyItem) ∘ (fun n : Nat => (n : Int))) = b := by
          have hcomp : ((fun i : Int => b.getD i.toNat dummyItem) ∘ (fun n : Nat => (n : Int))) =
              (fun n : Nat => b.getD n dummyItem) := by
            funext n
            simp [Function.comp]
          rw [hcomp]
          exact getD_range_map b dummyItem
        rw [h3] at h2
        exact h2

theorem scored_segments_ok (o : Nat → BatchResponse) :
    ∀ (bs : List (List Item)) (k : Nat),
      (∀ p ∈ bs.enumFrom k, respOk p.2 (o p.1)) →
      ((((bs.enumFrom k).map (fun p => scoreBatch p.2 (o p.1))).flatten.length
          = bs.flatten.length)
        ∧ List.Perm
            (((bs.enumFrom k).map (fun p => scoreBatch p.2 (o p.1))).flatten.map
              (fun x => x.item))
            bs.flatten) := by
  intro bs
  induction bs with
  | nil => intro k H; exact ⟨rfl, List.Perm.refl _⟩
  | cons b t ih =>
      intro k H
      have hb : respOk b (o k) := H (k, b) (by simp [List.enumFrom])
      have ht := ih (k + 1) (fun p hp => H p (by simp [List.enumFrom, hp]))
      obtain ⟨hlen, hperm⟩ := scoreBatch_ok b (o k) hb
      simp only [List.enumFrom, List.map_cons, List.flatten_cons, List.length_append,
        List.map_append]
      exact ⟨by rw [hlen, ht.1], hperm.append ht.2⟩

/-- C1 (amended): the Tier-1 scored output (before top-fraction selection)
has the same length as the input, with each input item mapped to exactly
one output item, PROVIDED every successful batch response returns the batch
indices exactly once each (failed or JSON-less responses are fine: the
whole batch is backfilled).  Without that proviso the claim is false: in
the success path only returned in-range ids are emitted, so a response that
omits ids shortens the output (see the counterexample). -/
theorem tier1_scored_complete (news : List Item) (o : Nat → BatchResponse)
    (H : ∀ p ∈ (chunks 20 news).enum, respOk p.2 (o p.1)) :
    (tier1_scored news o).length = news.length
    ∧ List.Perm ((tier1_scored news o).map (fun x => x.item)) news := by
  have hfl : (chunks 20 news).flatten = news := chunks_flatten 20 (by norm_num) news
  have h := scored_segments_ok o (chunks 20 news) 0 H
  rw [hfl] at h
  exact h

/-- C1 witness: two items, one batch, a success response returning both ids
once each in swapped order: the output has length two and its items are a
permutation pairing of the input. -/
theorem tier1_scored_complete_witness :
    (tier1_scored [dummyItem, { dummyItem with title := "b" }]
        (fun _ => BatchResponse.success
          [⟨1, 80, "x"⟩, ⟨0, 60, "y"⟩])).length =
      ([dummyItem, { dummyItem with title := "b" }] : List Item).length
    ∧ List.Perm
        ((tier1_scored [dummyItem, { dummyItem with title := "b" }]
            (fun _ => BatchResponse.success
              [⟨1, 80, "x"⟩, ⟨0, 60, "y"⟩])).map (fun x => x.item))
        [dummyItem, { dummyItem with title := "b" }] := by
  apply tier1_scored_complete
  have hch : chunks 20 [dummyItem, { dummyItem with title := "b" }] =
      [[dummyItem, { dummyItem with title := "b" }]] := by
    rw [chunks, chunks]
    simp
  rw [hch]
  intro p hp
  simp only [List.enum, List.enumFrom, List.mem_singleton] at hp
  rw [hp]
  decide
